import Mathlib

/-!
Shallow embedding of the block-generation pipeline of the `mining` package
(file `internal/pkg/mining/block_generate.go`): the functions `Generate`,
`divideMessages` and `aggregateBLS`, together with the data model they
operate on.  External collaborators (state-tree store, power table, message
pool, processor, message store, worker-address resolver, signer, clock) are
modelled as fields of `DefaultWorker`; `Generate` additionally returns an
ordered trace of its observable collaborator effects so that ordering and
mutation properties can be stated and proved.
-/

/-- Address protocols of the `address` package: `ID`, `SECP256K1`, `Actor`
and `BLS`. -/
inductive Protocol where
  | ID
  | SECP256K1
  | Actor
  | BLS
  deriving DecidableEq, Repr

/-- Numeric tag of a protocol, as in the `address` package constants. -/
def Protocol.toNat : Protocol → Nat
  | .ID => 0
  | .SECP256K1 => 1
  | .Actor => 2
  | .BLS => 3

/-- An address: its protocol tag together with an abstract payload. -/
structure Address where
  protocol : Protocol
  payload : Nat
  deriving DecidableEq, Repr

/-- Content identifiers are abstract. -/
abbrev Cid := Nat

/-- A tip-set key is the abstract content hash of its member block ids. -/
abbrev TipSetKey := Nat

/-- Tickets are abstract. -/
abbrev Ticket := Nat

/-- A VRF output (election proof) is a byte string. -/
abbrev VRFPi := List Nat

/-- An unsigned message body (`types.UnsignedMessage`): the fields the
generation pipeline reads, with the sender address `From` first among them. -/
structure UnsignedMessage where
  To : Address
  From : Address
  CallSeqNum : Nat
  Value : Nat
  Params : List Nat
  deriving DecidableEq, Repr

/-- A signed message (`types.SignedMessage`): an unsigned body plus raw
signature bytes. -/
structure SignedMessage where
  Message : UnsignedMessage
  Signature : List Nat
  deriving DecidableEq, Repr

/-- The outcome of executing one message (`types.MessageReceipt`). -/
structure MessageReceipt where
  ExitCode : Nat
  ReturnValue : List (List Nat)
  GasAttoFIL : Nat
  deriving DecidableEq, Repr

/-- One applied-message outcome: its receipt (plus an optional execution
error message). -/
structure ApplicationResult where
  Receipt : MessageReceipt
  ExecutionErrorMsg : Option String
  deriving DecidableEq, Repr

/-- The response of the state-transition engine
(`ApplyMessagesAndPayRewards`): applied results, plus the classification of
the input messages into successful, permanently failed and temporarily
failed ones. -/
structure ApplyMessagesResponse where
  Results : List ApplicationResult
  SuccessfulMessages : List SignedMessage
  PermanentFailures : List SignedMessage
  PermanentErrors : List String
  TemporaryFailures : List SignedMessage
  TemporaryErrors : List String
  deriving DecidableEq, Repr

/-- Observable collaborator effects of one `Generate` call, in the order
they occur. -/
inductive Event where
  | getAncestorsAt (h : Nat)
  | drainPool
  | applyMsgs (msgs : List SignedMessage) (h : Nat)
  | applied (res : ApplyMessagesResponse)
  | flushState
  | flushStorage
  | storeMsgs (secp : List SignedMessage) (bls : List UnsignedMessage)
  | storeRcpts (rcpts : List MessageReceipt)
  | signBlock
  | removeMsg (c : Cid)
  deriving DecidableEq, Repr

/-- A read-only power-table snapshot. -/
structure PowerTable where
  HasPower : Address → Bool

/-- A state tree is abstract (identified by its root). -/
structure StateTree where
  root : Nat
  deriving DecidableEq, Repr

/-- A scratch storage map (`vm.StorageMap`) is abstract. -/
structure StorageMap where
  ident : Nat
  deriving DecidableEq, Repr

/-- A tip set: its key and its height (reading the height can fail, e.g.
for an empty tip set). -/
structure TipSet where
  key : TipSetKey
  height : Except String Nat

/-- The produced block (`block.Block`), with the fields `Generate` sets. -/
structure Block where
  Miner : Address
  Height : Nat
  Messages : Cid
  MessageReceipts : Cid
  Parents : TipSetKey
  ParentWeight : Nat
  ElectionProof : List Nat
  StateRoot : Cid
  Tickets : List Ticket
  Timestamp : Nat
  BLSAggregateSig : List Nat
  BlockSig : List Nat
  deriving DecidableEq, Repr

/-- Modelled from the spec: the block's canonical signable byte
representation covers every field except the block signature itself (the
repository's serialization code lives outside the mining package). -/
def Block.SignatureData (b : Block) : List Nat :=
  [b.Miner.protocol.toNat, b.Miner.payload, b.Height, b.Messages,
   b.MessageReceipts, b.Parents, b.ParentWeight] ++ b.ElectionProof ++
  [b.StateRoot] ++ b.Tickets ++ [b.Timestamp] ++ b.BLSAggregateSig

/-- A local queue of drained messages. -/
structure MessageQueue where
  msgs : List SignedMessage

/-- Modelled from the spec: the `MessageQueue` constructor of the mining
package is outside the embedded file; the spec specifies draining as
removing all currently pending messages, with no reordering, so the queue
simply holds the pending sequence. -/
def NewMessageQueue (pending : List SignedMessage) : MessageQueue :=
  ⟨pending⟩

/-- Modelled from the spec: draining yields the held sequence. -/
def MessageQueue.Drain (q : MessageQueue) : List SignedMessage :=
  q.msgs

/-- The worker: its addresses plus its collaborators, modelled as
functions.  `messageSourcePending` is the pool content returned by
`messageSource.Pending()` at the time of the call. -/
structure DefaultWorker where
  minerAddr : Address
  minerOwnerAddr : Address
  getStateTree : TipSet → Except String StateTree
  getPowerTable : TipSetKey → Except String PowerTable
  getWeight : TipSet → Except String Nat
  getAncestors : TipSet → Nat → Except String (List TipSet)
  messageSourcePending : List SignedMessage
  newStorageMap : StorageMap
  applyMessagesAndPayRewards :
    StateTree → StorageMap → List SignedMessage → Address → Nat →
      List TipSet → Except String ApplyMessagesResponse
  stateTreeFlush : StateTree → Except String Cid
  storageMapFlush : StorageMap → Except String Unit
  storeMessages : List SignedMessage → List UnsignedMessage → Except String Cid
  storeReceipts : List MessageReceipt → Except String Cid
  minerGetWorkerAddress : Address → TipSetKey → Except String Address
  signBytes : List Nat → Address → Except String (List Nat)
  clockNow : Nat
  msgCid : SignedMessage → Except String Cid

/-- Whether a signed message's sender address uses the BLS protocol. -/
def isBLSMessage (m : SignedMessage) : Bool :=
  decide (m.Message.From.protocol = Protocol.BLS)

/-- Function divideMessages (source lines 177-189): splits a sequence of signed messages
into the non-BLS ("secp") and the BLS subsequences, appending each message
to one of two accumulators exactly as the source loop does. -/
def divideMessages (messages : List SignedMessage) :
    List SignedMessage × List SignedMessage :=
  messages.foldl
    (fun (acc : List SignedMessage × List SignedMessage) m =>
      if m.Message.From.protocol = Protocol.BLS then
        (acc.1, acc.2 ++ [m])
      else
        (acc.1 ++ [m], acc.2))
    ([], [])

/-- Size in bytes of a `bls.Signature` (`go-bls-sigs`). -/
def SignatureBytes : Nat := 96

/-- The zero value of a fixed-size BLS signature (`bls.Signature{}`). -/
def blsSignatureZero : List Nat :=
  List.replicate SignatureBytes 0

/-- Semantics of Go's built-in `copy(dst, src)` on byte slices: the first
`min (length dst) (length src)` elements of `dst` are overwritten by `src`,
the rest of `dst` is unchanged. -/
def goCopy (dst src : List Nat) : List Nat :=
  src.take dst.length ++ dst.drop src.length

namespace bls

/-- Modelled from the spec: the external aggregation primitive of
`go-bls-sigs` (its code is outside this repository).  Per the spec it
combines fixed-size signatures with the scheme's aggregation operation,
whose identity is the zero signature, so aggregating the empty set yields
the zero signature; a commutative byte-wise stand-in represents the group
operation. -/
def Aggregate (sigs : List (List Nat)) : Option (List Nat) :=
  some (sigs.foldl
    (fun acc s => List.zipWith (fun a b => (a + b) % 256) acc s)
    blsSignatureZero)

end bls

/-- Function aggregateBLS (source lines 157-175): unwraps each BLS message to its body,
copies its signature bytes into a fixed-size BLS signature value, and
aggregates the signatures; fails when the primitive reports failure. -/
def aggregateBLS (blsMessages : List SignedMessage) :
    Except String (List UnsignedMessage × List Nat) :=
  let sigs := blsMessages.foldl
    (fun acc msg => acc ++ [goCopy blsSignatureZero msg.Signature]) []
  let unwrappedMsgs := blsMessages.foldl
    (fun acc msg => acc ++ [msg.Message]) []
  match bls.Aggregate sigs with
  | none => .error "could not aggregate signatures"
  | some blsAggregateSig => .ok (unwrappedMsgs, blsAggregateSig)

/-- The receipt-collection loop of `Generate` (lines 85-90): starting from
the explicitly empty (non-nil) slice, append each result's receipt in
order. -/
def collectReceipts (results : List ApplicationResult) :
    List MessageReceipt :=
  results.foldl (fun receipts r => receipts ++ [r.Receipt]) []

/-- The pool-removal effects of the permanent-failure loop (lines 133-145):
one `Remove` per permanent failure whose content id can be computed. -/
def removeEvents (w : DefaultWorker) (res : ApplyMessagesResponse) :
    List Event :=
  res.PermanentFailures.filterMap (fun msg =>
    match w.msgCid msg with
    | .ok mc => some (Event.removeMsg mc)
    | .error _ => none)

/-- Error wrapping as errors.Wrap does: the stage message prepended to the cause. -/
def wrapErr (stage cause : String) : String :=
  stage ++ ": " ++ cause

/-- The block-generation entry point (`DefaultWorker.Generate`,
lines 21-155).  Besides the produced block (or the error), it returns the
ordered trace of observable collaborator effects.  The block-height sum is
Go `uint64` arithmetic, so it is taken modulo 2 ^ 64. -/
def Generate (w : DefaultWorker) (baseTipSet : TipSet)
    (tickets : List Ticket) (electionProof : VRFPi)
    (nullBlockCount : Nat) : Except String Block × List Event :=
  match w.getStateTree baseTipSet with
  | .error e => (.error (wrapErr "get state tree" e), [])
  | .ok stateTree =>
    match w.getPowerTable baseTipSet.key with
    | .error e => (.error (wrapErr "get power table" e), [])
    | .ok powerTable =>
      if ! powerTable.HasPower w.minerAddr then
        (.error "bad miner address, miner must store files before mining", [])
      else
        match w.getWeight baseTipSet with
        | .error e => (.error (wrapErr "get weight" e), [])
        | .ok weight =>
          match baseTipSet.height with
          | .error e => (.error (wrapErr "get base tip set height" e), [])
          | .ok baseHeight =>
            let blockHeight := (baseHeight + nullBlockCount + 1) % 2 ^ 64
            match w.getAncestors baseTipSet blockHeight with
            | .error e =>
                (.error (wrapErr "get base tip set ancestors" e),
                 [Event.getAncestorsAt blockHeight])
            | .ok ancestors =>
              let pending := w.messageSourcePending
              let mq := NewMessageQueue pending
              let divided := divideMessages mq.Drain
              let secpMessages := divided.1
              let blsMessages := divided.2
              let messages := blsMessages ++ secpMessages
              let vms := w.newStorageMap
              match w.applyMessagesAndPayRewards stateTree vms messages
                  w.minerOwnerAddr blockHeight ancestors with
              | .error e =>
                  (.error (wrapErr "generate apply messages" e),
                   [Event.getAncestorsAt blockHeight, Event.drainPool,
                    Event.applyMsgs messages blockHeight])
              | .ok res =>
                match w.stateTreeFlush stateTree with
                | .error e =>
                    (.error (wrapErr "generate flush state tree" e),
                     [Event.getAncestorsAt blockHeight, Event.drainPool,
                      Event.applyMsgs messages blockHeight,
                      Event.applied res, Event.flushState])
                | .ok newStateTreeCid =>
                  match w.storageMapFlush vms with
                  | .error e =>
                      (.error (wrapErr "generate flush vm storage map" e),
                       [Event.getAncestorsAt blockHeight, Event.drainPool,
                        Event.applyMsgs messages blockHeight,
                        Event.applied res, Event.flushState,
                        Event.flushStorage])
                  | .ok _ =>
                    let receipts := collectReceipts res.Results
                    let divided2 := divideMessages res.SuccessfulMessages
                    let minedSecpMessages := divided2.1
                    let minedBLSMessages := divided2.2
                    match aggregateBLS minedBLSMessages with
                    | .error e =>
                        (.error (wrapErr "could not aggregate bls messages" e),
                         [Event.getAncestorsAt blockHeight, Event.drainPool,
                          Event.applyMsgs messages blockHeight,
                          Event.applied res, Event.flushState,
                          Event.flushStorage])
                    | .ok aggregated =>
                      let unwrappedBLSMessages := aggregated.1
                      let blsAggregateSig := aggregated.2
                      match w.storeMessages minedSecpMessages
                          unwrappedBLSMessages with
                      | .error e =>
                          (.error (wrapErr "error persisting messages" e),
                           [Event.getAncestorsAt blockHeight, Event.drainPool,
                            Event.applyMsgs messages blockHeight,
                            Event.applied res, Event.flushState,
                            Event.flushStorage,
                            Event.storeMsgs minedSecpMessages
                              unwrappedBLSMessages])
                      | .ok txMeta =>
                        match w.storeReceipts receipts with
                        | .error e =>
                            (.error (wrapErr "error persisting receipts" e),
                             [Event.getAncestorsAt blockHeight,
                              Event.drainPool,
                              Event.applyMsgs messages blockHeight,
                              Event.applied res, Event.flushState,
                              Event.flushStorage,
                              Event.storeMsgs minedSecpMessages
                                unwrappedBLSMessages,
                              Event.storeRcpts receipts])
                        | .ok rcptsCid =>
                          let next : Block :=
                            { Miner := w.minerAddr
                              Height := blockHeight
                              Messages := txMeta
                              MessageReceipts := rcptsCid
                              Parents := baseTipSet.key
                              ParentWeight := weight
                              ElectionProof := electionProof
                              StateRoot := newStateTreeCid
                              Tickets := tickets
                              Timestamp := w.clockNow
                              BLSAggregateSig := blsAggregateSig
                              BlockSig := [] }
                          match w.minerGetWorkerAddress w.minerAddr
                              baseTipSet.key with
                          | .error e =>
                              (.error (wrapErr
                                "failed to read workerAddr during block generation" e),
                               [Event.getAncestorsAt blockHeight,
                                Event.drainPool,
                                Event.applyMsgs messages blockHeight,
                                Event.applied res, Event.flushState,
                                Event.flushStorage,
                                Event.storeMsgs minedSecpMessages
                                  unwrappedBLSMessages,
                                Event.storeRcpts receipts])
                          | .ok workerAddr =>
                            match w.signBytes next.SignatureData
                                workerAddr with
                            | .error e =>
                                (.error (wrapErr "failed to sign block" e),
                                 [Event.getAncestorsAt blockHeight,
                                  Event.drainPool,
                                  Event.applyMsgs messages blockHeight,
                                  Event.applied res, Event.flushState,
                                  Event.flushStorage,
                                  Event.storeMsgs minedSecpMessages
                                    unwrappedBLSMessages,
                                  Event.storeRcpts receipts,
                                  Event.signBlock])
                            | .ok blockSig =>
                              (.ok { next with BlockSig := blockSig },
                               [Event.getAncestorsAt blockHeight,
                                Event.drainPool,
                                Event.applyMsgs messages blockHeight,
                                Event.applied res, Event.flushState,
                                Event.flushStorage,
                                Event.storeMsgs minedSecpMessages
                                  unwrappedBLSMessages,
                                Event.storeRcpts receipts,
                                Event.signBlock] ++ removeEvents w res)

/-! ## Helper lemmas -/

theorem divideMessages_go (msgs : List SignedMessage) :
    ∀ (s b : List SignedMessage),
      msgs.foldl
        (fun (acc : List SignedMessage × List SignedMessage) m =>
          if m.Message.From.protocol = Protocol.BLS then
            (acc.1, acc.2 ++ [m])
          else
            (acc.1 ++ [m], acc.2)) (s, b)
      = (s ++ msgs.filter (fun m => ! isBLSMessage m),
         b ++ msgs.filter isBLSMessage) := by
  induction msgs with
  | nil => simp
  | cons m t ih =>
    intro s b
    by_cases h : m.Message.From.protocol = Protocol.BLS
    · simp [h, isBLSMessage, ih]
    · simp [h, isBLSMessage, ih]

theorem divideMessages_eq_filter (msgs : List SignedMessage) :
    divideMessages msgs
      = (msgs.filter (fun m => ! isBLSMessage m),
         msgs.filter isBLSMessage) := by
  simpa [divideMessages] using divideMessages_go msgs [] []

theorem foldl_append_map {α β : Type} (f : α → β) (l : List α) :
    ∀ acc : List β,
      l.foldl (fun a x => a ++ [f x]) acc = acc ++ l.map f := by
  induction l with
  | nil => simp
  | cons x t ih => intro acc; simp [ih]

theorem collectReceipts_eq_map (results : List ApplicationResult) :
    collectReceipts results = results.map (fun r => r.Receipt) := by
  simpa [collectReceipts] using
    foldl_append_map (fun r : ApplicationResult => r.Receipt) results []

theorem aggregateBLS_eq (msgs : List SignedMessage) :
    aggregateBLS msgs
      = .ok (msgs.map (fun m => m.Message),
             (msgs.map (fun m => goCopy blsSignatureZero m.Signature)).foldl
               (fun acc s => List.zipWith (fun a b => (a + b) % 256) acc s)
               blsSignatureZero) := by
  simp [aggregateBLS, bls.Aggregate,
    foldl_append_map (fun m : SignedMessage => goCopy blsSignatureZero m.Signature),
    foldl_append_map (fun m : SignedMessage => m.Message)]

theorem goCopy_zero_pad (s : List Nat) :
    goCopy blsSignatureZero s
      = s.take SignatureBytes
          ++ List.replicate (SignatureBytes - s.length) 0 := by
  simp [goCopy, blsSignatureZero, List.drop_replicate]

theorem goCopy_zero_length (s : List Nat) :
    (goCopy blsSignatureZero s).length = SignatureBytes := by
  simp [goCopy, blsSignatureZero]
  omega

theorem mem_removeEvents {w : DefaultWorker} {res : ApplyMessagesResponse}
    {ev : Event} (h : ev ∈ removeEvents w res) :
    ∃ c, ev = Event.removeMsg c := by
  simp only [removeEvents, List.mem_filterMap] at h
  obtain ⟨m, _, hm⟩ := h
  cases hc : w.msgCid m with
  | ok mc =>
    rw [hc] at hm
    simp only [Option.some.injEq] at hm
    exact ⟨mc, hm.symm⟩
  | error e =>
    rw [hc] at hm
    simp at hm

/-- Case analysis of `Generate`: trace invariants (the applied sequence, the
persisted receipts, pool removals) and the exact shape of a successful run. -/
theorem Generate_cases (w : DefaultWorker) (base : TipSet)
    (tks : List Ticket) (ep : VRFPi) (n : Nat)
    (r : Except String Block) (tr : List Event)
    (hG : Generate w base tks ep n = (r, tr)) :
    (∀ ms hh, Event.applyMsgs ms hh ∈ tr →
        ms = (divideMessages (NewMessageQueue w.messageSourcePending).Drain).2
          ++ (divideMessages (NewMessageQueue w.messageSourcePending).Drain).1)
    ∧ (∀ rs, Event.storeRcpts rs ∈ tr →
        ∃ res, Event.applied res ∈ tr
          ∧ rs = collectReceipts res.Results)
    ∧ (∀ c, Event.removeMsg c ∈ tr → ∃ b, r = .ok b)
    ∧ (∀ b, r = .ok b →
        ∃ baseHeight stateTree res newCid unwrapped,
          base.height = .ok baseHeight
          ∧ b.Height = (baseHeight + n + 1) % 2 ^ 64
          ∧ w.getStateTree base = .ok stateTree
          ∧ w.stateTreeFlush stateTree = .ok newCid
          ∧ b.StateRoot = newCid
          ∧ w.storageMapFlush w.newStorageMap = .ok ()
          ∧ tr =
              [Event.getAncestorsAt ((baseHeight + n + 1) % 2 ^ 64),
               Event.drainPool,
               Event.applyMsgs
                 ((divideMessages (NewMessageQueue w.messageSourcePending).Drain).2
                   ++ (divideMessages (NewMessageQueue w.messageSourcePending).Drain).1)
                 ((baseHeight + n + 1) % 2 ^ 64),
               Event.applied res, Event.flushState, Event.flushStorage,
               Event.storeMsgs (divideMessages res.SuccessfulMessages).1 unwrapped,
               Event.storeRcpts (collectReceipts res.Results),
               Event.signBlock] ++ removeEvents w res) := by
  unfold Generate at hG
  cases h1 : w.getStateTree base with
  | error e1 =>
    rw [h1] at hG
    simp only [Prod.mk.injEq] at hG
    obtain ⟨rfl, rfl⟩ := hG
    simp
  | ok stateTree =>
  simp only [h1] at hG
  cases h2 : w.getPowerTable base.key with
  | error e2 =>
    rw [h2] at hG
    simp only [Prod.mk.injEq] at hG
    obtain ⟨rfl, rfl⟩ := hG
    simp
  | ok powerTable =>
  simp only [h2] at hG
  cases hp : powerTable.HasPower w.minerAddr with
  | false =>
    simp only [hp, Bool.not_false, eq_self_iff_true, if_true, Prod.mk.injEq] at hG
    obtain ⟨rfl, rfl⟩ := hG
    simp
  | true =>
  simp only [hp, Bool.not_true, Bool.false_eq_true, if_false] at hG
  cases h3 : w.getWeight base with
  | error e3 =>
    rw [h3] at hG
    simp only [Prod.mk.injEq] at hG
    obtain ⟨rfl, rfl⟩ := hG
    simp
  | ok weight =>
  simp only [h3] at hG
  cases h4 : base.height with
  | error e4 =>
    rw [h4] at hG
    simp only [Prod.mk.injEq] at hG
    obtain ⟨rfl, rfl⟩ := hG
    simp
  | ok baseHeight =>
  simp only [h4] at hG
  cases h5 : w.getAncestors base ((baseHeight + n + 1) % 2 ^ 64) with
  | error e5 =>
    rw [h5] at hG
    simp only [Prod.mk.injEq] at hG
    obtain ⟨rfl, rfl⟩ := hG
    simp
  | ok ancestors =>
  simp only [h5] at hG
  cases h6 : w.applyMessagesAndPayRewards stateTree w.newStorageMap
      ((divideMessages (NewMessageQueue w.messageSourcePending).Drain).2
        ++ (divideMessages (NewMessageQueue w.messageSourcePending).Drain).1)
      w.minerOwnerAddr ((baseHeight + n + 1) % 2 ^ 64) ancestors with
  | error e6 =>
    rw [h6] at hG
    simp only [Prod.mk.injEq] at hG
    obtain ⟨rfl, rfl⟩ := hG
    refine ⟨?_, by simp, by simp, by simp⟩
    intro ms hh hmem
    simp at hmem
    exact hmem.1
  | ok res =>
  simp only [h6] at hG
  cases h7 : w.stateTreeFlush stateTree with
  | error e7 =>
    rw [h7] at hG
    simp only [Prod.mk.injEq] at hG
    obtain ⟨rfl, rfl⟩ := hG
    refine ⟨?_, by simp, by simp, by simp⟩
    intro ms hh hmem
    simp at hmem
    exact hmem.1
  | ok newCid =>
  simp only [h7] at hG
  cases h8 : w.storageMapFlush w.newStorageMap with
  | error e8 =>
    rw [h8] at hG
    simp only [Prod.mk.injEq] at hG
    obtain ⟨rfl, rfl⟩ := hG
    refine ⟨?_, by simp, by simp, by simp⟩
    intro ms hh hmem
    simp at hmem
    exact hmem.1
  | ok u =>
  cases u
  simp only [h8] at hG
  rw [aggregateBLS_eq (divideMessages res.SuccessfulMessages).2] at hG
  dsimp only at hG
  cases h9 : w.storeMessages (divideMessages res.SuccessfulMessages).1
      ((divideMessages res.SuccessfulMessages).2.map (fun m => m.Message)) with
  | error e9 =>
    rw [h9] at hG
    simp only [Prod.mk.injEq] at hG
    obtain ⟨rfl, rfl⟩ := hG
    refine ⟨?_, by simp, by simp, by simp⟩
    intro ms hh hmem
    simp at hmem
    exact hmem.1
  | ok txMeta =>
  simp only [h9] at hG
  cases h10 : w.storeReceipts (collectReceipts res.Results) with
  | error e10 =>
    rw [h10] at hG
    simp only [Prod.mk.injEq] at hG
    obtain ⟨rfl, rfl⟩ := hG
    refine ⟨?_, ?_, by simp, by simp⟩
    · intro ms hh hmem
      simp at hmem
      exact hmem.1
    · intro rs hmem
      simp at hmem
      exact ⟨res, by simp, hmem⟩
  | ok rcptsCid =>
  simp only [h10] at hG
  cases h11 : w.minerGetWorkerAddress w.minerAddr base.key with
  | error e11 =>
    rw [h11] at hG
    simp only [Prod.mk.injEq] at hG
    obtain ⟨rfl, rfl⟩ := hG
    refine ⟨?_, ?_, by simp, by simp⟩
    · intro ms hh hmem
      simp at hmem
      exact hmem.1
    · intro rs hmem
      simp at hmem
      exact ⟨res, by simp, hmem⟩
  | ok workerAddr =>
  simp only [h11] at hG
  split at hG
  · rename_i e12 h12
    simp only [Prod.mk.injEq] at hG
    obtain ⟨rfl, rfl⟩ := hG
    refine ⟨?_, ?_, by simp, by simp⟩
    · intro ms hh hmem
      simp at hmem
      exact hmem.1
    · intro rs hmem
      simp at hmem
      exact ⟨res, by simp, hmem⟩
  · rename_i blockSig h12
    simp only [Prod.mk.injEq] at hG
    obtain ⟨rfl, rfl⟩ := hG
    refine ⟨?_, ?_, ?_, ?_⟩
    · intro ms hh hmem
      rw [List.mem_append] at hmem
      rcases hmem with hmem | hmem
      · simp at hmem
        exact hmem.1
      · obtain ⟨c, hc⟩ := mem_removeEvents hmem
        simp at hc
    · intro rs hmem
      rw [List.mem_append] at hmem
      rcases hmem with hmem | hmem
      · simp at hmem
        refine ⟨res, ?_, hmem⟩
        rw [List.mem_append]
        left
        simp
      · obtain ⟨c, hc⟩ := mem_removeEvents hmem
        simp at hc
    · intro c hmem
      exact ⟨_, rfl⟩
    · intro b hb
      simp only [Except.ok.injEq] at hb
      subst hb
      exact ⟨baseHeight, stateTree, res, newCid,
        (divideMessages res.SuccessfulMessages).2.map (fun m => m.Message),
        rfl, rfl, rfl, h7, rfl, rfl, rfl⟩

theorem divide_bls_first (l : List SignedMessage) :
    ((divideMessages l).2).all isBLSMessage = true
    ∧ ((divideMessages l).1).all (fun m => ! isBLSMessage m) = true := by
  rw [divideMessages_eq_filter]
  constructor
  · simp only [List.all_eq_true]
    intro m hm
    simpa using (List.mem_filter.1 hm).2
  · simp only [List.all_eq_true]
    intro m hm
    simpa using (List.mem_filter.1 hm).2

/-! ## Claim theorems -/

/-- C1: for every drained pending message sequence, the combined sequence
passed to the message applier is the BLS-signed subsequence followed by the
non-BLS subsequence, so every BLS-signed message precedes every non-BLS
message regardless of the original pool order. -/
theorem generate_applies_bls_before_secp
    (w : DefaultWorker) (base : TipSet) (tks : List Ticket) (ep : VRFPi)
    (n : Nat) (ms : List SignedMessage) (hh : Nat)
    (hmem : Event.applyMsgs ms hh ∈ (Generate w base tks ep n).2) :
    ms = (divideMessages (NewMessageQueue w.messageSourcePending).Drain).2
      ++ (divideMessages (NewMessageQueue w.messageSourcePending).Drain).1
    ∧ ∃ bl sl, ms = bl ++ sl ∧ bl.all isBLSMessage = true
        ∧ sl.all (fun m => ! isBLSMessage m) = true := by
  obtain ⟨hA, -, -, -⟩ := Generate_cases w base tks ep n (Generate w base tks ep n).1
    (Generate w base tks ep n).2 rfl
  have hms := hA ms hh hmem
  refine ⟨hms, (divideMessages (NewMessageQueue w.messageSourcePending).Drain).2,
    (divideMessages (NewMessageQueue w.messageSourcePending).Drain).1, hms,
    (divide_bls_first _).1, (divide_bls_first _).2⟩

/-- C2: `divideMessages` produces two disjoint subsequences (secp first,
BLS second) that each preserve the relative order of the input, and whose
union is, as a multiset, exactly the input: no message is lost or
duplicated. -/
theorem divideMessages_partition (msgs : List SignedMessage) :
    ((divideMessages msgs).1).Sublist msgs
    ∧ ((divideMessages msgs).2).Sublist msgs
    ∧ ((divideMessages msgs).2 ++ (divideMessages msgs).1).Perm msgs
    ∧ (∀ m, m ∈ (divideMessages msgs).1 → m ∉ (divideMessages msgs).2) := by
  rw [divideMessages_eq_filter]
  refine ⟨List.filter_sublist msgs, List.filter_sublist msgs,
    List.filter_append_perm isBLSMessage msgs, ?_⟩
  intro m h1 h2
  have hn := (List.mem_filter.1 h1).2
  have hy := (List.mem_filter.1 h2).2
  simp_all

/-- C4: aggregating the empty sequence of BLS messages succeeds and returns
the zero aggregate signature (no error for the empty input). -/
theorem aggregateBLS_empty_ok :
    aggregateBLS [] = .ok ([], blsSignatureZero)
    ∧ blsSignatureZero.length = SignatureBytes :=
  ⟨rfl, by simp [blsSignatureZero]⟩

/-- C9: `divideMessages` classifies solely by whether the sender address
protocol equals BLS: the BLS subsequence is exactly the messages whose
sender protocol is BLS, and every other message — including those whose
protocol is neither BLS nor Secp — lands in the secp subsequence. -/
theorem divideMessages_classifies_by_bls_protocol
    (msgs : List SignedMessage) :
    (divideMessages msgs).2 = msgs.filter isBLSMessage
    ∧ (divideMessages msgs).1 = msgs.filter (fun m => ! isBLSMessage m)
    ∧ ∀ m, m ∈ msgs → m.Message.From.protocol ≠ Protocol.BLS →
        m ∈ (divideMessages msgs).1 := by
  rw [divideMessages_eq_filter]
  refine ⟨rfl, rfl, ?_⟩
  intro m hm hproto
  exact List.mem_filter.2 ⟨hm, by simp [isBLSMessage, hproto]⟩

/-- C10: `aggregateBLS` never validates signature lengths: each message's
signature bytes are copied into the fixed-size zero BLS signature — a short
signature is zero-padded and a long one truncated to `SignatureBytes` — and
the call returns successfully for every input. -/
theorem aggregateBLS_pads_and_truncates (msgs : List SignedMessage) :
    (∃ agg, bls.Aggregate
        (msgs.map (fun m => goCopy blsSignatureZero m.Signature)) = some agg
      ∧ aggregateBLS msgs = .ok (msgs.map (fun m => m.Message), agg))
    ∧ (∀ m, m ∈ msgs →
        goCopy blsSignatureZero m.Signature
          = m.Signature.take SignatureBytes
              ++ List.replicate (SignatureBytes - m.Signature.length) 0
        ∧ (goCopy blsSignatureZero m.Signature).length = SignatureBytes) :=
  ⟨⟨_, rfl, aggregateBLS_eq msgs⟩,
   fun m _ => ⟨goCopy_zero_pad m.Signature, goCopy_zero_length m.Signature⟩⟩

/-- C3: a pool removal can only happen when `Generate` returns a fully
signed block; on every error path no `Remove` call occurs, so the message
pool is left unmodified. -/
theorem generate_no_removal_without_signed_block
    (w : DefaultWorker) (base : TipSet) (tks : List Ticket) (ep : VRFPi)
    (n : Nat) (c : Cid)
    (hmem : Event.removeMsg c ∈ (Generate w base tks ep n).2) :
    ∃ b, (Generate w base tks ep n).1 = .ok b :=
  (Generate_cases w base tks ep n (Generate w base tks ep n).1
    (Generate w base tks ep n).2 rfl).2.2.1 c hmem

/-- C5: the persisted receipt list is exactly one receipt per
applied-message result, in application order, and is the explicit empty
sequence when zero messages apply. -/
theorem generate_receipts_one_per_applied
    (w : DefaultWorker) (base : TipSet) (tks : List Ticket) (ep : VRFPi)
    (n : Nat) (rs : List MessageReceipt)
    (hmem : Event.storeRcpts rs ∈ (Generate w base tks ep n).2) :
    ∃ res, Event.applied res ∈ (Generate w base tks ep n).2
      ∧ rs = collectReceipts res.Results
      ∧ rs = res.Results.map (fun r => r.Receipt)
      ∧ rs.length = res.Results.length
      ∧ (res.Results = [] → rs = []) := by
  obtain ⟨-, hB, -, -⟩ := Generate_cases w base tks ep n (Generate w base tks ep n).1
    (Generate w base tks ep n).2 rfl
  obtain ⟨res, hap, hrs⟩ := hB rs hmem
  refine ⟨res, hap, hrs, ?_, ?_, ?_⟩
  · rw [hrs, collectReceipts_eq_map]
  · rw [hrs, collectReceipts_eq_map, List.length_map]
  · intro h0
    rw [hrs, h0]
    rfl

/-- C6: if the power table reports that the local miner has zero power,
`Generate` returns an error with an empty effect trace: the pending pool is
not drained, no message is applied and no persistence write occurs. -/
theorem generate_zero_power_aborts
    (w : DefaultWorker) (base : TipSet) (tks : List Ticket) (ep : VRFPi)
    (n : Nat) (pt : PowerTable)
    (hpt : w.getPowerTable base.key = .ok pt)
    (hpow : pt.HasPower w.minerAddr = false) :
    (Generate w base tks ep n).2 = []
    ∧ ∃ e, (Generate w base tks ep n).1 = .error e := by
  cases h1 : w.getStateTree base with
  | error e => simp [Generate, h1]
  | ok st => simp [Generate, h1, hpt, hpow]

/-- C7 (amended): for a parent tip set of height h and null-block count n,
the produced block's height, the ancestor-lookup height and the message
application height all equal (h + n + 1) mod 2 ^ 64, reproducing the
source's `uint64` addition, which wraps; below 2 ^ 64 this is exactly
h + n + 1. -/
theorem generate_height_mod_uint64
    (w : DefaultWorker) (base : TipSet) (tks : List Ticket) (ep : VRFPi)
    (n : Nat) (b : Block) (h0 : Nat)
    (hh : base.height = .ok h0)
    (hok : (Generate w base tks ep n).1 = .ok b) :
    b.Height = (h0 + n + 1) % 2 ^ 64
    ∧ Event.getAncestorsAt ((h0 + n + 1) % 2 ^ 64)
        ∈ (Generate w base tks ep n).2
    ∧ ∃ ms, Event.applyMsgs ms ((h0 + n + 1) % 2 ^ 64)
        ∈ (Generate w base tks ep n).2 := by
  obtain ⟨-, -, -, hD⟩ := Generate_cases w base tks ep n (Generate w base tks ep n).1
    (Generate w base tks ep n).2 rfl
  obtain ⟨bH, sT, res, nC, uw, hbh, hH, -, -, -, -, htr⟩ := hD b hok
  have hEq : bH = h0 := by
    rw [hh] at hbh
    injection hbh with h
    exact h.symm
  subst hEq
  refine ⟨hH, ?_,
    ⟨(divideMessages (NewMessageQueue w.messageSourcePending).Drain).2
      ++ (divideMessages (NewMessageQueue w.messageSourcePending).Drain).1, ?_⟩⟩
  · rw [htr]
    simp
  · rw [htr]
    simp

/-- C8: after message application `Generate` flushes the state tree and then
the scratch storage map; a block is only produced when both flushes
succeeded, and its state root is exactly the flushed one. -/
theorem generate_flushes_state_then_storage
    (w : DefaultWorker) (base : TipSet) (tks : List Ticket) (ep : VRFPi)
    (n : Nat) (b : Block)
    (hok : (Generate w base tks ep n).1 = .ok b) :
    (∃ st, w.getStateTree base = .ok st
      ∧ w.stateTreeFlush st = .ok b.StateRoot)
    ∧ w.storageMapFlush w.newStorageMap = .ok ()
    ∧ ∃ pre ms hh mid1 mid2 post,
        (Generate w base tks ep n).2
          = pre ++ Event.applyMsgs ms hh
              :: (mid1 ++ Event.flushState
                :: (mid2 ++ Event.flushStorage :: post)) := by
  obtain ⟨-, -, -, hD⟩ := Generate_cases w base tks ep n (Generate w base tks ep n).1
    (Generate w base tks ep n).2 rfl
  obtain ⟨bH, sT, res, nC, uw, hbh, hH, hst, hfl, hsr, hsm, htr⟩ := hD b hok
  refine ⟨⟨sT, hst, ?_⟩, hsm, ?_⟩
  · rw [hsr]
    exact hfl
  · refine ⟨[Event.getAncestorsAt ((bH + n + 1) % 2 ^ 64), Event.drainPool],
      (divideMessages (NewMessageQueue w.messageSourcePending).Drain).2
        ++ (divideMessages (NewMessageQueue w.messageSourcePending).Drain).1,
      (bH + n + 1) % 2 ^ 64, [Event.applied res], [],
      [Event.storeMsgs (divideMessages res.SuccessfulMessages).1 uw,
       Event.storeRcpts (collectReceipts res.Results),
       Event.signBlock] ++ removeEvents w res, ?_⟩
    rw [htr]
    rfl

/-! ## Concrete scenario used by the witnesses -/

/-- A message whose sender uses the BLS protocol. -/
def msg1 : SignedMessage :=
  { Message :=
      { To := ⟨Protocol.ID, 50⟩, From := ⟨Protocol.BLS, 1⟩,
        CallSeqNum := 0, Value := 5, Params := [] },
    Signature := [1, 2, 3] }

/-- A message whose sender uses the SECP256K1 protocol. -/
def msg2 : SignedMessage :=
  { Message :=
      { To := ⟨Protocol.ID, 51⟩, From := ⟨Protocol.SECP256K1, 2⟩,
        CallSeqNum := 1, Value := 6, Params := [7] },
    Signature := [4] }

/-- A message whose sender protocol is neither BLS nor SECP256K1. -/
def msg3 : SignedMessage :=
  { Message :=
      { To := ⟨Protocol.ID, 52⟩, From := ⟨Protocol.ID, 3⟩,
        CallSeqNum := 2, Value := 0, Params := [] },
    Signature := [5] }

/-- A message with an over-long (100-byte) signature. -/
def msgLong : SignedMessage :=
  { Message :=
      { To := ⟨Protocol.ID, 53⟩, From := ⟨Protocol.BLS, 4⟩,
        CallSeqNum := 3, Value := 1, Params := [] },
    Signature := List.replicate 100 7 }

def rcpt1 : MessageReceipt :=
  { ExitCode := 0, ReturnValue := [], GasAttoFIL := 3 }

def rcpt2 : MessageReceipt :=
  { ExitCode := 0, ReturnValue := [[1]], GasAttoFIL := 4 }

/-- An apply response: `msg1` and `msg2` succeed with two receipts, `msg3`
fails permanently. -/
def res0 : ApplyMessagesResponse :=
  { Results := [⟨rcpt1, none⟩, ⟨rcpt2, none⟩],
    SuccessfulMessages := [msg1, msg2],
    PermanentFailures := [msg3],
    PermanentErrors := ["permanent failure"],
    TemporaryFailures := [],
    TemporaryErrors := [] }

/-- A power table in which every miner has power. -/
def ptAll : PowerTable := ⟨fun _ => true⟩

/-- A power table in which no miner has power. -/
def ptNone : PowerTable := ⟨fun _ => false⟩

/-- A worker whose collaborators all succeed, over the three-message pool. -/
def w0 : DefaultWorker :=
  { minerAddr := ⟨Protocol.ID, 100⟩
    minerOwnerAddr := ⟨Protocol.ID, 101⟩
    getStateTree := fun _ => .ok ⟨7⟩
    getPowerTable := fun _ => .ok ptAll
    getWeight := fun _ => .ok 42
    getAncestors := fun _ _ => .ok []
    messageSourcePending := [msg1, msg2, msg3]
    newStorageMap := ⟨0⟩
    applyMessagesAndPayRewards := fun _ _ _ _ _ _ => .ok res0
    stateTreeFlush := fun _ => .ok 11
    storageMapFlush := fun _ => .ok ()
    storeMessages := fun _ _ => .ok 21
    storeReceipts := fun _ => .ok 22
    minerGetWorkerAddress := fun _ _ => .ok ⟨Protocol.SECP256K1, 9⟩
    signBytes := fun _ _ => .ok [9, 9]
    clockNow := 1000
    msgCid := fun m => .ok m.Message.CallSeqNum }

/-- The same worker facing a power table that reports zero power. -/
def w1 : DefaultWorker :=
  { w0 with getPowerTable := fun _ => .ok ptNone }

/-- A parent tip set of height 10. -/
def base0 : TipSet := ⟨5, .ok 10⟩

/-- The block `Generate w0 base0 [] [] 0` produces. -/
def b0 : Block :=
  { Miner := ⟨Protocol.ID, 100⟩
    Height := 11
    Messages := 21
    MessageReceipts := 22
    Parents := 5
    ParentWeight := 42
    ElectionProof := []
    StateRoot := 11
    Tickets := []
    Timestamp := 1000
    BLSAggregateSig := [1, 2, 3] ++ List.replicate 93 0
    BlockSig := [9, 9] }

/-! ## Witnesses -/

/-- Witness for C1 at the concrete three-message pool. -/
theorem generate_applies_bls_before_secp_witness :
    [msg1, msg2, msg3]
      = (divideMessages (NewMessageQueue w0.messageSourcePending).Drain).2
        ++ (divideMessages (NewMessageQueue w0.messageSourcePending).Drain).1
    ∧ ∃ bl sl, [msg1, msg2, msg3] = bl ++ sl ∧ bl.all isBLSMessage = true
        ∧ sl.all (fun m => ! isBLSMessage m) = true :=
  generate_applies_bls_before_secp w0 base0 [] [] 0 [msg1, msg2, msg3] 11
    (by decide)

/-- Witness for C2 at the concrete three-message pool. -/
theorem divideMessages_partition_witness :
    ((divideMessages [msg1, msg2, msg3]).1).Sublist [msg1, msg2, msg3]
    ∧ ((divideMessages [msg1, msg2, msg3]).2).Sublist [msg1, msg2, msg3]
    ∧ ((divideMessages [msg1, msg2, msg3]).2
        ++ (divideMessages [msg1, msg2, msg3]).1).Perm [msg1, msg2, msg3]
    ∧ (∀ m, m ∈ (divideMessages [msg1, msg2, msg3]).1 →
        m ∉ (divideMessages [msg1, msg2, msg3]).2) :=
  divideMessages_partition [msg1, msg2, msg3]

/-- Witness for C3: with one permanent failure in the pool, a removal
happens and the run indeed produced a signed block. -/
theorem generate_no_removal_without_signed_block_witness :
    ∃ b, (Generate w0 base0 [] [] 0).1 = .ok b :=
  generate_no_removal_without_signed_block w0 base0 [] [] 0 2 (by decide)

/-- Witness for C5 at the concrete two-receipt apply response. -/
theorem generate_receipts_one_per_applied_witness :
    ∃ res, Event.applied res ∈ (Generate w0 base0 [] [] 0).2
      ∧ [rcpt1, rcpt2] = collectReceipts res.Results
      ∧ [rcpt1, rcpt2] = res.Results.map (fun r => r.Receipt)
      ∧ ([rcpt1, rcpt2] : List MessageReceipt).length = res.Results.length
      ∧ (res.Results = [] → [rcpt1, rcpt2] = []) :=
  generate_receipts_one_per_applied w0 base0 [] [] 0 [rcpt1, rcpt2]
    (by decide)

/-- Witness for C6 at the zero-power worker. -/
theorem generate_zero_power_aborts_witness :
    (Generate w1 base0 [] [] 0).2 = []
    ∧ ∃ e, (Generate w1 base0 [] [] 0).1 = .error e :=
  generate_zero_power_aborts w1 base0 [] [] 0 ptNone rfl rfl

/-- Witness for C7 at parent height 10 and zero null blocks. -/
theorem generate_height_mod_uint64_witness :
    b0.Height = (10 + 0 + 1) % 2 ^ 64
    ∧ Event.getAncestorsAt ((10 + 0 + 1) % 2 ^ 64)
        ∈ (Generate w0 base0 [] [] 0).2
    ∧ ∃ ms, Event.applyMsgs ms ((10 + 0 + 1) % 2 ^ 64)
        ∈ (Generate w0 base0 [] [] 0).2 :=
  generate_height_mod_uint64 w0 base0 [] [] 0 b0 10 rfl rfl

/-- The block produced when the height computation wraps: same run as `b0`
but with null-block count 2 ^ 64 - 1, so the recorded height is 10. -/
def bWrap : Block :=
  { b0 with Height := 10 }

/-- Counterexample for C7 as originally stated: over a parent of height 10
with caller-supplied null-block count 2 ^ 64 - 1, generation succeeds, but
the `uint64` sum wraps and the recorded block height is
(10 + (2 ^ 64 - 1) + 1) mod 2 ^ 64 = 10, not 10 + (2 ^ 64 - 1) + 1. -/
theorem generate_height_wrap_counterexample :
    ∃ b, (Generate w0 base0 [] [] (2 ^ 64 - 1)).1 = .ok b
      ∧ base0.height = .ok 10
      ∧ b.Height ≠ 10 + (2 ^ 64 - 1) + 1 :=
  ⟨bWrap, rfl, rfl, by decide⟩

/-- Witness for C8 at the concrete successful run. -/
theorem generate_flushes_state_then_storage_witness :
    (∃ st, w0.getStateTree base0 = .ok st
      ∧ w0.stateTreeFlush st = .ok b0.StateRoot)
    ∧ w0.storageMapFlush w0.newStorageMap = .ok ()
    ∧ ∃ pre ms hh mid1 mid2 post,
        (Generate w0 base0 [] [] 0).2
          = pre ++ Event.applyMsgs ms hh
              :: (mid1 ++ Event.flushState
                :: (mid2 ++ Event.flushStorage :: post)) :=
  generate_flushes_state_then_storage w0 base0 [] [] 0 b0 rfl

/-- Witness for C9: in the concrete pool, the ID-protocol message `msg3`
(neither BLS nor secp) lands in the secp subsequence. -/
theorem divideMessages_classifies_by_bls_protocol_witness :
    (divideMessages [msg1, msg2, msg3]).2
      = [msg1, msg2, msg3].filter isBLSMessage
    ∧ (divideMessages [msg1, msg2, msg3]).1
      = [msg1, msg2, msg3].filter (fun m => ! isBLSMessage m)
    ∧ ∀ m, m ∈ [msg1, msg2, msg3] →
        m.Message.From.protocol ≠ Protocol.BLS →
        m ∈ (divideMessages [msg1, msg2, msg3]).1 :=
  divideMessages_classifies_by_bls_protocol [msg1, msg2, msg3]

/-- Witness for C10 at a 3-byte (padded) and a 100-byte (truncated)
signature. -/
theorem aggregateBLS_pads_and_truncates_witness :
    (∃ agg, bls.Aggregate
        ([msg1, msgLong].map (fun m => goCopy blsSignatureZero m.Signature))
          = some agg
      ∧ aggregateBLS [msg1, msgLong]
          = .ok ([msg1, msgLong].map (fun m => m.Message), agg))
    ∧ (∀ m, m ∈ [msg1, msgLong] →
        goCopy blsSignatureZero m.Signature
          = m.Signature.take SignatureBytes
              ++ List.replicate (SignatureBytes - m.Signature.length) 0
        ∧ (goCopy blsSignatureZero m.Signature).length = SignatureBytes) :=
  aggregateBLS_pads_and_truncates [msg1, msgLong]
